import Mathlib

/-!
Verification development for the scheduled-email subsystem of the
napcat-plugin-email repository.

The embedding models:
- the proleptic Gregorian calendar arithmetic performed by the JavaScript
  Date object (getDate, setDate, getMonth, setMonth over an epoch-millisecond
  timeline, as specified by ECMA-262; the civil conversion uses the standard
  era-based algorithm). The local clock is modeled as a fixed-offset (UTC)
  clock, matching the ISO timestamps the plugin stores via toISOString.
- the scheduled-email service (src/services/scheduled-email-service.ts):
  task creation, update, cancel, delete, execution, recurrence computation,
  due-check and the scheduler tick.
- the email history service (email-history-service.ts): addRecord with its
  newest-first ordering and 1000-record cap, getStats and getTodayStats.
- parameter validation (validateScheduledEmailParams), with JavaScript
  string trimming and comma splitting modeled character-wise.

Timestamps are integers (milliseconds since the Unix epoch), standing for
the ISO-8601 strings the source stores; parsing and re-serialisation of
valid timestamps is the identity under this reading. The mail dispatcher
(sendEmail in email-service.ts) catches every transport error internally
and always returns a success flag plus a message, so it is modeled as a
total result value passed to the executor.
-/

set_option maxHeartbeats 4000000

/-! Calendar core: civil date from day number and back (era-based algorithm,
floor division throughout, as used by JavaScript Date internals). -/

structure Civil where
  y : Int
  m : Int
  d : Int
deriving DecidableEq, Repr

/-- Era index of a day number (one era is 146097 days = 400 years). -/
def cfdEra (z : Int) : Int := (z + 719468) / 146097

/-- Day of era, in the range 0..146096. -/
def cfdDoe (z : Int) : Int := (z + 719468) % 146097

/-- Year of era, in the range 0..399 (years start in March). -/
def cfdYoe (z : Int) : Int :=
  (cfdDoe z - cfdDoe z / 1460 + cfdDoe z / 36524 - cfdDoe z / 146096) / 365

/-- Day of the (March-based) year, in the range 0..365. -/
def cfdDoy (z : Int) : Int := cfdDoe z - (365 * cfdYoe z + cfdYoe z / 4 - cfdYoe z / 100)

/-- Month index in the March-based year, 0 = March .. 11 = February. -/
def cfdMp (z : Int) : Int := (5 * cfdDoy z + 2) / 153

/-- Civil (year, month 1..12, day 1..31) of a day number (day 0 = 1970-01-01). -/
def civilFromDays (z : Int) : Civil :=
  let d := cfdDoy z - (153 * cfdMp z + 2) / 5 + 1
  let m := cfdMp z + (if cfdMp z < 10 then 3 else -9)
  ⟨cfdYoe z + cfdEra z * 400 + (if m ≤ 2 then 1 else 0), m, d⟩

/-- Day number of a civil (year, month, day); linear in the day argument, so it
also realises the month-relative day normalisation of ECMA MakeDay. -/
def daysFromCivil (y m d : Int) : Int :=
  let ys := y - (if m ≤ 2 then 1 else 0)
  let era := ys / 400
  let yoe := ys - era * 400
  let doy := (153 * (m + (if 2 < m then -3 else 9)) + 2) / 5 + d - 1
  era * 146097 + (yoe * 365 + yoe / 4 - yoe / 100 + doy) - 719468

/-! The JavaScript Date model: epoch milliseconds, ECMA-262 component
functions under a fixed-offset local clock. -/

def msPerDay : Int := 86400000

/-- ECMA Day(t). -/
def timeDays (t : Int) : Int := t / msPerDay

/-- ECMA TimeWithinDay(t). -/
def msOfDay (t : Int) : Int := t % msPerDay

/-- Civil reading of a timestamp. -/
def civilOf (t : Int) : Civil := civilFromDays (timeDays t)

/-- ECMA DateFromTime: day of month, 1..31. -/
def jsGetDate (t : Int) : Int := (civilOf t).d

/-- ECMA MonthFromTime: month, 0-based (0 = January). -/
def jsGetMonth (t : Int) : Int := (civilOf t).m - 1

/-- ECMA YearFromTime. -/
def jsGetFullYear (t : Int) : Int := (civilOf t).y

/-- Date.prototype.setDate: replace the day of month (with normalisation),
keeping the time within the day. -/
def jsSetDate (t n : Int) : Int :=
  msPerDay * daysFromCivil (jsGetFullYear t) (jsGetMonth t + 1) n + msOfDay t

/-- Date.prototype.setMonth with a 0-based month argument: ECMA MakeDay
normalises the month into the year and keeps the day of month (rolling
overflow into the next month), keeping the time within the day. -/
def jsSetMonth (t marg : Int) : Int :=
  msPerDay * daysFromCivil (jsGetFullYear t + marg / 12) (marg % 12 + 1) (jsGetDate t) +
    msOfDay t

/-! Data model of the scheduled-email subsystem (types.ts). -/

inductive ScheduleType where
  | once
  | daily
  | weekly
  | monthly
  | interval
deriving DecidableEq, Repr

inductive TaskStatus where
  | pending
  | sent
  | failed
  | cancelled
deriving DecidableEq, Repr

inductive EmailSendType where
  | scheduled
  | manual
  | test
deriving DecidableEq, Repr

inductive EmailSendStatus where
  | success
  | failed
deriving DecidableEq, Repr

/-- Attachment metadata; the binary payload (content or path) plays no role in
the verified operations and is not modeled. -/
structure EmailAttachment where
  filename : String
  contentType : Option String
deriving DecidableEq, Repr

/-- ScheduledEmail (types.ts). scheduledAt, createdAt and lastSentAt are the
epoch-millisecond values of the stored ISO strings. -/
structure ScheduledEmail where
  id : String
  name : String
  «to» : String
  subject : String
  text : Option String
  html : Option String
  attachments : List EmailAttachment
  scheduleType : ScheduleType
  scheduledAt : Int
  intervalMinutes : Option Int
  weekday : Option Int
  dayOfMonth : Option Int
  status : TaskStatus
  createdAt : Int
  lastSentAt : Option Int
  errorMessage : Option String
  sendCount : Int
  maxSendCount : Option Int
deriving DecidableEq, Repr

/-- EmailHistory (types.ts). -/
structure EmailHistory where
  id : String
  sendType : EmailSendType
  «to» : String
  subject : String
  text : Option String
  html : Option String
  status : EmailSendStatus
  errorMessage : Option String
  sentAt : Int
  scheduledEmailId : Option String
  attachmentCount : Int
  attachments : Option (List EmailAttachment)
deriving DecidableEq, Repr

/-- EmailHistoryStats (types.ts). -/
structure EmailHistoryStats where
  total : Int
  success : Int
  failed : Int
  scheduled : Int
  manual : Int
  test : Int
deriving DecidableEq, Repr

/-- The result shape returned by sendEmail and executeScheduledEmail. -/
structure SendResult where
  success : Bool
  message : String
deriving DecidableEq, Repr

/-- CreateScheduledEmailParams (types.ts); scheduledAt stays a raw string here
because validateScheduledEmailParams parses it. -/
structure CreateScheduledEmailParams where
  name : String
  «to» : String
  subject : String
  text : Option String
  html : Option String
  attachments : List EmailAttachment
  scheduleType : ScheduleType
  scheduledAt : String
  intervalMinutes : Option Int
  weekday : Option Int
  dayOfMonth : Option Int
  maxSendCount : Option Int
deriving DecidableEq, Repr

/-- UpdateScheduledEmailParams (types.ts): absent fields are none; the
maxSendCount field distinguishes absent (outer none) from explicit null
(some none). -/
structure UpdateScheduledEmailParams where
  name : Option String
  «to» : Option String
  subject : Option String
  text : Option String
  html : Option String
  attachments : Option (List EmailAttachment)
  scheduleType : Option ScheduleType
  scheduledAt : Option Int
  intervalMinutes : Option Int
  weekday : Option Int
  dayOfMonth : Option Int
  status : Option TaskStatus
  maxSendCount : Option (Option Int)
deriving DecidableEq, Repr

/-! Operations of scheduled-email-service.ts. -/

/-- createScheduledEmail: assembly of the new task record; the generated id,
the creation clock and the epoch value ts of params.scheduledAt are passed in. -/
def createScheduledEmail (id : String) (now ts : Int) (p : CreateScheduledEmailParams) :
    ScheduledEmail :=
  { id := id, name := p.name, «to» := p.to, subject := p.subject, text := p.text,
    html := p.html, attachments := p.attachments, scheduleType := p.scheduleType,
    scheduledAt := ts, intervalMinutes := p.intervalMinutes, weekday := p.weekday,
    dayOfMonth := p.dayOfMonth, status := TaskStatus.pending, createdAt := now,
    lastSentAt := none, errorMessage := none, sendCount := 0,
    maxSendCount := p.maxSendCount }

/-- One conditional field write of updateScheduledEmail: when the update
params carry the field, overwrite it, else keep the task unchanged. -/
def updField {α : Type} (o : Option α) (f : α → ScheduledEmail) (e : ScheduledEmail) :
    ScheduledEmail :=
  match o with
  | some v => f v
  | none => e

def updName (p : UpdateScheduledEmailParams) (e : ScheduledEmail) : ScheduledEmail :=
  updField p.name (fun v => { e with name := v }) e

def updTo (p : UpdateScheduledEmailParams) (e : ScheduledEmail) : ScheduledEmail :=
  updField p.to (fun v => { e with «to» := v }) e

def updSubject (p : UpdateScheduledEmailParams) (e : ScheduledEmail) : ScheduledEmail :=
  updField p.subject (fun v => { e with subject := v }) e

def updText (p : UpdateScheduledEmailParams) (e : ScheduledEmail) : ScheduledEmail :=
  updField p.text (fun v => { e with text := some v }) e

def updHtml (p : UpdateScheduledEmailParams) (e : ScheduledEmail) : ScheduledEmail :=
  updField p.html (fun v => { e with html := some v }) e

def updAttachments (p : UpdateScheduledEmailParams) (e : ScheduledEmail) : ScheduledEmail :=
  updField p.attachments (fun v => { e with attachments := v }) e

def updScheduleType (p : UpdateScheduledEmailParams) (e : ScheduledEmail) : ScheduledEmail :=
  updField p.scheduleType (fun v => { e with scheduleType := v }) e

def updScheduledAt (p : UpdateScheduledEmailParams) (e : ScheduledEmail) : ScheduledEmail :=
  updField p.scheduledAt (fun v => { e with scheduledAt := v }) e

def updIntervalMinutes (p : UpdateScheduledEmailParams) (e : ScheduledEmail) : ScheduledEmail :=
  updField p.intervalMinutes (fun v => { e with intervalMinutes := some v }) e

def updWeekday (p : UpdateScheduledEmailParams) (e : ScheduledEmail) : ScheduledEmail :=
  updField p.weekday (fun v => { e with weekday := some v }) e

def updDayOfMonth (p : UpdateScheduledEmailParams) (e : ScheduledEmail) : ScheduledEmail :=
  updField p.dayOfMonth (fun v => { e with dayOfMonth := some v }) e

def updStatus (p : UpdateScheduledEmailParams) (e : ScheduledEmail) : ScheduledEmail :=
  updField p.status (fun v => { e with status := v }) e

def updMaxSendCount (p : UpdateScheduledEmailParams) (e : ScheduledEmail) : ScheduledEmail :=
  updField p.maxSendCount (fun v => { e with maxSendCount := v }) e

/-- The field merging of updateScheduledEmail (lines 84-96): every provided
field overwrites the stored one in source order, with no guard on the current
status. -/
def applyUpdateParams (p : UpdateScheduledEmailParams) (e : ScheduledEmail) : ScheduledEmail :=
  updMaxSendCount p (updStatus p (updDayOfMonth p (updWeekday p (updIntervalMinutes p
    (updScheduledAt p (updScheduleType p (updAttachments p (updHtml p (updText p
      (updSubject p (updTo p (updName p e))))))))))))

/-- updateScheduledEmail (lines 73-104) over the loaded task list: find by id,
merge fields, write back; returns the updated task (or none) and the saved list. -/
def updateScheduledEmail (id : String) (p : UpdateScheduledEmailParams) :
    List ScheduledEmail → Option ScheduledEmail × List ScheduledEmail
  | [] => (none, [])
  | t :: ts =>
    if t.id = id then (some (applyUpdateParams p t), applyUpdateParams p t :: ts)
    else
      let r := updateScheduledEmail id p ts
      (r.1, t :: r.2)

/-- The literal update argument of cancelScheduledEmail. -/
def cancelParams : UpdateScheduledEmailParams :=
  { name := none, «to» := none, subject := none, text := none, html := none,
    attachments := none, scheduleType := none, scheduledAt := none,
    intervalMinutes := none, weekday := none, dayOfMonth := none,
    status := some TaskStatus.cancelled, maxSendCount := none }

/-- cancelScheduledEmail (lines 129-136). -/
def cancelScheduledEmail (id : String) (tasks : List ScheduledEmail) :
    Bool × List ScheduledEmail :=
  let r := updateScheduledEmail id cancelParams tasks
  (r.1.isSome, r.2)

/-- deleteScheduledEmail (lines 109-124): splice out the first task with the id. -/
def deleteScheduledEmail (id : String) : List ScheduledEmail → Bool × List ScheduledEmail
  | [] => (false, [])
  | t :: ts =>
    if t.id = id then (true, ts)
    else
      let r := deleteScheduledEmail id ts
      (r.1, t :: r.2)

/-- calculateNextScheduledTime (lines 233-265); now is the wall clock read at
the top of the function, used only by the interval branch. -/
def calculateNextScheduledTime (now : Int) (email : ScheduledEmail) : Int :=
  match email.scheduleType with
  | ScheduleType.daily => jsSetDate email.scheduledAt (jsGetDate email.scheduledAt + 1)
  | ScheduleType.weekly => jsSetDate email.scheduledAt (jsGetDate email.scheduledAt + 7)
  | ScheduleType.monthly => jsSetMonth email.scheduledAt (jsGetMonth email.scheduledAt + 1)
  | ScheduleType.interval =>
    match email.intervalMinutes with
    | some k => if 0 < k then now + k * 60000 else email.scheduledAt
    | none => email.scheduledAt
  | ScheduleType.once => email.scheduledAt

/-- shouldExecute (lines 270-280). -/
def shouldExecute (now : Int) (email : ScheduledEmail) : Bool :=
  if email.status = TaskStatus.cancelled ∨ email.status = TaskStatus.sent then false
  else decide (email.scheduledAt ≤ now)

/-- Success branch of executeScheduledEmail (lines 167-195): set lastSentAt,
increment sendCount, clear errorMessage, mark sent for a once task, mark sent
when the cap is reached, then recompute scheduledAt. -/
def execSuccessUpdate (now : Int) (e : ScheduledEmail) : ScheduledEmail :=
  let e1 : ScheduledEmail :=
    { e with lastSentAt := some now, sendCount := e.sendCount + 1, errorMessage := none }
  let e2 := if e1.scheduleType = ScheduleType.once
    then { e1 with status := TaskStatus.sent } else e1
  let e3 :=
    match e2.maxSendCount with
    | some m => if m ≤ e2.sendCount then { e2 with status := TaskStatus.sent } else e2
    | none => e2
  { e3 with scheduledAt := calculateNextScheduledTime now e3 }

/-- Failure branch of executeScheduledEmail (lines 196-208). -/
def execFailureUpdate (msg : String) (e : ScheduledEmail) : ScheduledEmail :=
  { e with status := TaskStatus.failed, errorMessage := some msg }

/-- The history record written by executeScheduledEmail (lines 154-165); recId
and now stand for the generated id and the clock read inside addRecord. -/
def mkScheduledRecord (recId : String) (now : Int) (e : ScheduledEmail) (res : SendResult) :
    EmailHistory :=
  { id := recId, sendType := EmailSendType.scheduled, «to» := e.to, subject := e.subject,
    text := e.text, html := e.html,
    status := if res.success then EmailSendStatus.success else EmailSendStatus.failed,
    errorMessage := if res.success then none else some res.message,
    sentAt := now, scheduledEmailId := some e.id,
    attachmentCount := (e.attachments.length : Int),
    attachments := some (e.attachments.map fun a => ⟨a.filename, a.contentType⟩) }

/-- EmailHistoryService.addRecord: prepend the record, truncate to 1000 kept
records, persist. -/
def addRecord (record : EmailHistory) (history : List EmailHistory) : List EmailHistory :=
  let h := record :: history
  if 1000 < h.length then h.take 1000 else h

/-- The findIndex plus in-place store write of executeScheduledEmail
(lines 188-193 and 200-205): replace the first task carrying the id. -/
def replaceFirst (tasks : List ScheduledEmail) (e : ScheduledEmail) : List ScheduledEmail :=
  match tasks with
  | [] => []
  | t :: ts => if t.id = e.id then e :: ts else t :: replaceFirst ts e

/-- The persisted state the service operates on: the task collection file and
the history collection. -/
structure SystemState where
  tasks : List ScheduledEmail
  history : List EmailHistory
deriving DecidableEq, Repr

/-- executeScheduledEmail (lines 141-228): record the attempt in the history,
then update the task according to the dispatch result and write it back.
res is the value returned by sendEmail, which catches every transport error
and always returns a success flag with a message. -/
def executeScheduledEmail (now : Int) (recId : String) (res : SendResult)
    (e : ScheduledEmail) (st : SystemState) : ScheduledEmail × SystemState :=
  let record := mkScheduledRecord recId now e res
  let hist := addRecord record st.history
  let e2 := if res.success then execSuccessUpdate now e else execFailureUpdate res.message e
  (e2, { tasks := replaceFirst st.tasks e2, history := hist })

/-- checkAndExecuteScheduledEmails (lines 286-307): filter the loaded tasks to
due pending ones, re-check the captured pending status, and execute each; the
fire-and-forget dispatches are sequentialised, with dispatch and recId
supplying each send result and generated record id. -/
def checkAndExecuteScheduledEmails (now : Int) (dispatch : ScheduledEmail → SendResult)
    (recId : ScheduledEmail → String) (st : SystemState) : SystemState :=
  let pendingEmails := st.tasks.filter fun e =>
    decide (e.status = TaskStatus.pending) && shouldExecute now e
  pendingEmails.foldl
    (fun s e =>
      if e.status = TaskStatus.pending then (executeScheduledEmail now (recId e) (dispatch e) e s).2
      else s)
    st

/-- Task evolution under the scheduler lifecycle: due executions (success or
failure) and cancellation, starting from some task state. -/
inductive ReachableTask : ScheduledEmail → ScheduledEmail → Prop where
  | refl (e : ScheduledEmail) : ReachableTask e e
  | execSuccess (e0 e : ScheduledEmail) (now : Int)
      (hr : ReachableTask e0 e) (hp : e.status = TaskStatus.pending)
      (hdue : shouldExecute now e = true) :
      ReachableTask e0 (execSuccessUpdate now e)
  | execFailure (e0 e : ScheduledEmail) (now : Int) (msg : String)
      (hr : ReachableTask e0 e) (hp : e.status = TaskStatus.pending)
      (hdue : shouldExecute now e = true) :
      ReachableTask e0 (execFailureUpdate msg e)
  | cancel (e0 e : ScheduledEmail) (hr : ReachableTask e0 e) :
      ReachableTask e0 (applyUpdateParams cancelParams e)

/-! History statistics (email-history-service.ts). -/

/-- One iteration of the counting loop shared by getStats and getTodayStats:
bump success or failed from the record status, and one of the three type
counters from the record sendType. -/
def statsStep (s : EmailHistoryStats) (r : EmailHistory) : EmailHistoryStats :=
  let s1 := if r.status = EmailSendStatus.success
    then { s with success := s.success + 1 }
    else { s with failed := s.failed + 1 }
  match r.sendType with
  | EmailSendType.scheduled => { s1 with scheduled := s1.scheduled + 1 }
  | EmailSendType.manual => { s1 with manual := s1.manual + 1 }
  | EmailSendType.test => { s1 with test := s1.test + 1 }

/-- The counting loop shared by getStats and getTodayStats. -/
def tallyStats (init : EmailHistoryStats) (records : List EmailHistory) : EmailHistoryStats :=
  records.foldl statsStep init

/-- EmailHistoryService.getStats. -/
def getStats (history : List EmailHistory) : EmailHistoryStats :=
  tallyStats
    { total := (history.length : Int), success := 0, failed := 0,
      scheduled := 0, manual := 0, test := 0 }
    history

/-- toDateString equality of two timestamps: the printed date strings agree
exactly when the civil dates agree. -/
def sameLocalDay (a b : Int) : Bool := decide (civilOf a = civilOf b)

/-- EmailHistoryService.getTodayStats. -/
def getTodayStats (now : Int) (history : List EmailHistory) : EmailHistoryStats :=
  let todayRecords := history.filter fun h => sameLocalDay h.sentAt now
  tallyStats
    { total := (todayRecords.length : Int), success := 0, failed := 0,
      scheduled := 0, manual := 0, test := 0 }
    todayRecords

/-! Validation (lines 319-385), with the JavaScript string operations it uses
modeled character-wise. -/

def isJsSpace (c : Char) : Bool := c == ' ' || c == '\t' || c == '\n' || c == '\r'

def trimChars (l : List Char) : List Char :=
  ((l.dropWhile isJsSpace).reverse.dropWhile isJsSpace).reverse

/-- String.prototype.trim, over the whitespace forms occurring in this data. -/
def jsTrim (s : String) : String := ⟨trimChars s.data⟩

def splitCommaAux : List Char → List Char → List (List Char)
  | [], acc => [acc.reverse]
  | c :: cs, acc =>
    if c == ',' then acc.reverse :: splitCommaAux cs [] else splitCommaAux cs (c :: acc)

/-- String.prototype.split on a comma. -/
def jsSplitComma (s : String) : List String := (splitCommaAux s.data []).map fun l => ⟨l⟩

/-- String.prototype.includes for a one-character needle. -/
def jsIncludesChar (s : String) (c : Char) : Bool := s.data.contains c

structure ValidationResult where
  valid : Bool
  message : String
deriving DecidableEq, Repr

/-- Source condition: !params.intervalMinutes || params.intervalMinutes <= 0. -/
def intervalMinutesBad (p : CreateScheduledEmailParams) : Bool :=
  match p.intervalMinutes with
  | some k => decide (k ≤ 0)
  | none => true

/-- Source condition: params.weekday === undefined || weekday < 0 || weekday > 6. -/
def weekdayBad (p : CreateScheduledEmailParams) : Bool :=
  match p.weekday with
  | some w => decide (w < 0) || decide (6 < w)
  | none => true

/-- Source condition: params.dayOfMonth === undefined || dayOfMonth < 1 || dayOfMonth > 31. -/
def dayOfMonthBad (p : CreateScheduledEmailParams) : Bool :=
  match p.dayOfMonth with
  | some dm => decide (dm < 1) || decide (31 < dm)
  | none => true

/-- Source condition: maxSendCount !== undefined && !== null && <= 0. -/
def maxSendCountBad (p : CreateScheduledEmailParams) : Bool :=
  match p.maxSendCount with
  | some c => decide (c ≤ 0)
  | none => false

/-- validateScheduledEmailParams (lines 319-385). parse models the JavaScript
Date constructor applied to the scheduledAt string: some epoch value when it
parses, none when the result is an invalid date. -/
def validateScheduledEmailParams (parse : String → Option Int) (now : Int)
    (params : CreateScheduledEmailParams) : ValidationResult :=
  if jsTrim params.name = "" then { valid := false, message := "任务名称不能为空" }
  else if jsTrim params.to = "" then { valid := false, message := "收件人不能为空" }
  else
    let recipients := ((jsSplitComma params.to).map jsTrim).filter fun r => decide (r ≠ "")
    if recipients.length = 0 then { valid := false, message := "收件人邮箱地址无效" }
    else
      let invalidRecipients := recipients.filter fun r => ! jsIncludesChar r '@'
      if 0 < invalidRecipients.length then
        { valid := false,
          message := "无效的收件人邮箱: " ++ String.intercalate ", " invalidRecipients }
      else if jsTrim params.subject = "" then { valid := false, message := "邮件主题不能为空" }
      else if params.scheduledAt = "" then { valid := false, message := "发送时间不能为空" }
      else
        match parse params.scheduledAt with
        | none => { valid := false, message := "发送时间格式无效" }
        | some ts =>
          if params.scheduleType = ScheduleType.once ∧ ts ≤ now then
            { valid := false, message := "一次性任务的发送时间必须在将来" }
          else
            let typeCheck : Option ValidationResult :=
              match params.scheduleType with
              | ScheduleType.interval =>
                if intervalMinutesBad params then
                  some { valid := false, message := "间隔时间必须大于 0 分钟" }
                else none
              | ScheduleType.weekly =>
                if weekdayBad params then
                  some { valid := false, message := "请选择有效的星期几（0-6，0=周日）" }
                else none
              | ScheduleType.monthly =>
                if dayOfMonthBad params then
                  some { valid := false, message := "请选择有效的日期（1-31）" }
                else none
              | _ => none
            match typeCheck with
            | some r => r
            | none =>
              if maxSendCountBad params then
                { valid := false, message := "最大发送次数必须大于 0" }
              else { valid := true, message := "参数有效" }

/-- The validation rules as the specification lists them, for comparison with
the source implementation: name, to, subject nonempty after trimming, every
(trimmed, nonempty) comma-separated recipient contains an at sign, scheduledAt
parses, a once schedule lies strictly in the future, type-specific fields are
present and in range, and a present maxSendCount is positive. -/
def specValidationRules (parse : String → Option Int) (now : Int)
    (p : CreateScheduledEmailParams) : Prop :=
  jsTrim p.name ≠ "" ∧ jsTrim p.to ≠ "" ∧ jsTrim p.subject ≠ "" ∧
  (∀ r ∈ ((jsSplitComma p.to).map jsTrim).filter fun r => decide (r ≠ ""),
    jsIncludesChar r '@' = true) ∧
  (∃ ts, parse p.scheduledAt = some ts ∧ (p.scheduleType = ScheduleType.once → now < ts)) ∧
  (p.scheduleType = ScheduleType.interval → ∃ k, p.intervalMinutes = some k ∧ 0 < k) ∧
  (p.scheduleType = ScheduleType.weekly → ∃ w, p.weekday = some w ∧ 0 ≤ w ∧ w ≤ 6) ∧
  (p.scheduleType = ScheduleType.monthly → ∃ dm, p.dayOfMonth = some dm ∧ 1 ≤ dm ∧ dm ≤ 31) ∧
  (∀ c : Int, p.maxSendCount = some c → 0 < c)

/-! Concrete sample data used to instantiate the theorems. -/

/-- A history record sample. -/
def sampleRecord : EmailHistory :=
  { id := "r0", sendType := EmailSendType.manual, «to» := "a@b.com", subject := "s",
    text := some "x", html := none, status := EmailSendStatus.success,
    errorMessage := none, sentAt := 0, scheduledEmailId := none,
    attachmentCount := 0, attachments := none }

/-- A pending daily task at the epoch. -/
def sampleTask : ScheduledEmail :=
  { id := "t1", name := "n", «to» := "a@b.com", subject := "s", text := some "x",
    html := none, attachments := [], scheduleType := ScheduleType.daily,
    scheduledAt := 0, intervalMinutes := none, weekday := none, dayOfMonth := none,
    status := TaskStatus.pending, createdAt := 0, lastSentAt := none,
    errorMessage := none, sendCount := 0, maxSendCount := none }

/-- A pending interval task, five minutes, scheduled far in the future. -/
def sampleInterval : ScheduledEmail :=
  { sampleTask with
    scheduleType := ScheduleType.interval
    intervalMinutes := some 5
    scheduledAt := 1000000 }

/-- Creation params that satisfy every validation rule. -/
def sampleGoodParams : CreateScheduledEmailParams :=
  { name := "n", «to» := "a@b.com", subject := "s", text := some "x", html := none,
    attachments := [], scheduleType := ScheduleType.daily,
    scheduledAt := "2030-01-01T00:00:00.000Z",
    intervalMinutes := none, weekday := none, dayOfMonth := none, maxSendCount := none }

/-- A pending once task at the epoch. -/
def sampleOnce : ScheduledEmail :=
  { sampleTask with
    scheduleType := ScheduleType.once }

/-- A once task already finalised to sent. -/
def sampleSent : ScheduledEmail :=
  { sampleTask with
    scheduleType := ScheduleType.once
    status := TaskStatus.sent }

/-- A cancelled task. -/
def sampleCancelled : ScheduledEmail :=
  { sampleTask with
    status := TaskStatus.cancelled }

/-- An update payload that renames the task and touches nothing else. -/
def renameParams : UpdateScheduledEmailParams :=
  { name := some "m", «to» := none, subject := none, text := none, html := none,
    attachments := none, scheduleType := none, scheduledAt := none,
    intervalMinutes := none, weekday := none, dayOfMonth := none,
    status := none, maxSendCount := none }

/-- A once task with a cap of three sends. -/
def sampleOnceCapped : ScheduledEmail :=
  { sampleTask with
    scheduleType := ScheduleType.once
    maxSendCount := some 3 }

/-- A recurring daily task with a cap of three sends. -/
def sampleDailyCapped : ScheduledEmail :=
  { sampleTask with
    maxSendCount := some 3 }

/-- An update payload that carries only status = pending (the administrative
revive documented for failed tasks). -/
def reviveParams : UpdateScheduledEmailParams :=
  { name := none, «to» := none, subject := none, text := none, html := none,
    attachments := none, scheduleType := none, scheduledAt := none,
    intervalMinutes := none, weekday := none, dayOfMonth := none,
    status := some TaskStatus.pending, maxSendCount := none }

/-- A concrete date parser for the samples: one known good string. -/
def sampleParse : String → Option Int :=
  fun s => if s = "2030-01-01T00:00:00.000Z" then some 1893456000000 else none

/-- Creation params whose recipient list collapses to nothing: to is a lone
comma. -/
def sampleCommaParams : CreateScheduledEmailParams :=
  { name := "n", «to» := ",", subject := "s", text := some "x", html := none,
    attachments := [], scheduleType := ScheduleType.daily,
    scheduledAt := "2030-01-01T00:00:00.000Z",
    intervalMinutes := none, weekday := none, dayOfMonth := none, maxSendCount := none }

/-! Calendar lemmas. -/

theorem cfdDoe_bounds (z : Int) :
    0 ≤ cfdDoe z ∧ cfdDoe z ≤ 146096 ∧ z = cfdEra z * 146097 + cfdDoe z - 719468 := by
  unfold cfdDoe cfdEra
  omega

theorem yoeRecover (q doy doe : Int) (h1 : 0 ≤ q) (h2 : q ≤ 399) (h3 : 0 ≤ doy)
    (h4 : doy ≤ 364 ∨ (doy = 365 ∧ (q + 1) % 4 = 0 ∧ ((q + 1) % 100 ≠ 0 ∨ q + 1 = 400)))
    (hdoe : doe = 365 * q + q / 4 - q / 100 + doy) :
    (doe - doe / 1460 + doe / 36524 - doe / 146096) / 365 = q := by
  have hf : doe / 1460 = q / 4 + (if 365 * (q % 4) + q / 4 - q / 100 + doy ≥ 1460 then 1 else 0) := by
    split_ifs <;> omega
  have hg : doe / 36524 = q / 100 + (if 365 * (q % 100) + (q % 100) / 4 + doy ≥ 36524 then 1 else 0) := by
    split_ifs <;> omega
  have hi : doe / 146096 = if doe = 146096 then 1 else 0 := by
    split_ifs <;> omega
  split_ifs at hf hg hi <;> omega

theorem doeDecomposeStep (n q doy : Int) (hq0 : 0 ≤ q) (hq1 : q ≤ 399) (hd0 : 0 ≤ doy)
    (hd1 : doy ≤ 364 ∨ (doy = 365 ∧ (q + 1) % 4 = 0 ∧ ((q + 1) % 100 ≠ 0 ∨ q + 1 = 400)))
    (hsum : n = 365 * q + q / 4 - q / 100 + doy) (hle : n + 1 ≤ 146096) :
    ∃ q2 doy2, 0 ≤ q2 ∧ q2 ≤ 399 ∧ 0 ≤ doy2 ∧
      (doy2 ≤ 364 ∨ (doy2 = 365 ∧ (q2 + 1) % 4 = 0 ∧ ((q2 + 1) % 100 ≠ 0 ∨ q2 + 1 = 400))) ∧
      n + 1 = 365 * q2 + q2 / 4 - q2 / 100 + doy2 := by
  by_cases hA : doy ≤ 363 ∨ (doy = 364 ∧ (q + 1) % 4 = 0 ∧ ((q + 1) % 100 ≠ 0 ∨ q + 1 = 400))
  · exact ⟨q, doy + 1, by omega, by omega, by omega, by omega, by omega⟩
  · exact ⟨q + 1, 0, by omega, by omega, by omega, by omega, by omega⟩

theorem doeDecompose (doe : Int) (h0 : 0 ≤ doe) (h1 : doe ≤ 146096) :
    ∃ q doy, 0 ≤ q ∧ q ≤ 399 ∧ 0 ≤ doy ∧
      (doy ≤ 364 ∨ (doy = 365 ∧ (q + 1) % 4 = 0 ∧ ((q + 1) % 100 ≠ 0 ∨ q + 1 = 400))) ∧
      doe = 365 * q + q / 4 - q / 100 + doy := by
  revert h1
  refine Int.le_induction
    (P := fun n => n ≤ 146096 → ∃ q doy, 0 ≤ q ∧ q ≤ 399 ∧ 0 ≤ doy ∧
      (doy ≤ 364 ∨ (doy = 365 ∧ (q + 1) % 4 = 0 ∧ ((q + 1) % 100 ≠ 0 ∨ q + 1 = 400))) ∧
      n = 365 * q + q / 4 - q / 100 + doy) ?_ ?_ doe h0
  · intro _
    exact ⟨0, 0, by omega, by omega, by omega, by omega, by omega⟩
  · intro n hn ih hle
    obtain ⟨q, doy, hq0, hq1, hd0, hd1, hsum⟩ := ih (by omega)
    exact doeDecomposeStep n q doy hq0 hq1 hd0 hd1 hsum hle

theorem daysFromCivil_shifted (era q mp d : Int) (hq0 : 0 ≤ q) (hq1 : q ≤ 399)
    (hmp0 : 0 ≤ mp) (hmp1 : mp ≤ 11) :
    daysFromCivil (q + era * 400 + (if mp + (if mp < 10 then 3 else -9) ≤ 2 then 1 else 0))
        (mp + (if mp < 10 then 3 else -9)) d =
      era * 146097 + (365 * q + q / 4 - q / 100 + ((153 * mp + 2) / 5 + d - 1)) - 719468 := by
  unfold daysFromCivil
  dsimp only
  split_ifs <;> omega

theorem civilFromDays_eq (z : Int) :
    ∃ q doy, cfdYoe z = q ∧ cfdDoy z = doy ∧
      0 ≤ q ∧ q ≤ 399 ∧ 0 ≤ doy ∧
      (doy ≤ 364 ∨ (doy = 365 ∧ (q + 1) % 4 = 0 ∧ ((q + 1) % 100 ≠ 0 ∨ q + 1 = 400))) ∧
      0 ≤ cfdMp z ∧ cfdMp z ≤ 11 ∧
      (153 * cfdMp z + 2) / 5 ≤ doy ∧ doy - (153 * cfdMp z + 2) / 5 ≤ 30 ∧
      z = cfdEra z * 146097 + (365 * q + q / 4 - q / 100 + doy) - 719468 ∧
      civilFromDays z =
        ⟨q + cfdEra z * 400 + (if cfdMp z + (if cfdMp z < 10 then 3 else -9) ≤ 2 then 1 else 0),
         cfdMp z + (if cfdMp z < 10 then 3 else -9),
         doy - (153 * cfdMp z + 2) / 5 + 1⟩ := by
  obtain ⟨hdoe0, hdoe1, hz⟩ := cfdDoe_bounds z
  obtain ⟨q, doy, hq0, hq1, hd0, hd1, hsum⟩ := doeDecompose (cfdDoe z) hdoe0 hdoe1
  have hyoe : cfdYoe z = q := by
    unfold cfdYoe
    exact yoeRecover q doy (cfdDoe z) hq0 hq1 hd0 hd1 hsum
  have hdoy : cfdDoy z = doy := by
    unfold cfdDoy
    rw [hyoe]
    omega
  have hmp : 0 ≤ cfdMp z ∧ cfdMp z ≤ 11 ∧ (153 * cfdMp z + 2) / 5 ≤ doy ∧
      doy - (153 * cfdMp z + 2) / 5 ≤ 30 := by
    unfold cfdMp
    rw [hdoy]
    omega
  refine ⟨q, doy, hyoe, hdoy, hq0, hq1, hd0, hd1, hmp.1, hmp.2.1, hmp.2.2.1, hmp.2.2.2,
    by omega, ?_⟩
  unfold civilFromDays
  rw [hdoy, hyoe]

theorem civilFromDays_spec (z : Int) :
    1 ≤ (civilFromDays z).m ∧ (civilFromDays z).m ≤ 12 ∧
    1 ≤ (civilFromDays z).d ∧ (civilFromDays z).d ≤ 31 ∧
    daysFromCivil (civilFromDays z).y (civilFromDays z).m (civilFromDays z).d = z := by
  obtain ⟨q, doy, hyoe, hdoy, hq0, hq1, hd0, hd1, hmp0, hmp1, hb0, hb1, hz, hciv⟩ :=
    civilFromDays_eq z
  rw [hciv]
  dsimp only
  refine ⟨by split_ifs <;> omega, by split_ifs <;> omega, by omega, by omega, ?_⟩
  rw [daysFromCivil_shifted (cfdEra z) q (cfdMp z) (doy - (153 * cfdMp z + 2) / 5 + 1)
    hq0 hq1 hmp0 hmp1]
  omega

theorem daysFromCivil_linear (y m d k : Int) :
    daysFromCivil y m (d + k) = daysFromCivil y m d + k := by
  unfold daysFromCivil
  dsimp only
  split_ifs <;> ring

theorem jsSetDate_add (t k : Int) : jsSetDate t (jsGetDate t + k) = t + k * msPerDay := by
  obtain ⟨hm1, hm2, hd1, hd2, hrt⟩ := civilFromDays_spec (timeDays t)
  unfold jsSetDate jsGetDate jsGetFullYear jsGetMonth civilOf
  have hm : (civilFromDays (timeDays t)).m - 1 + 1 = (civilFromDays (timeDays t)).m := by ring
  rw [hm, daysFromCivil_linear, hrt]
  unfold timeDays msOfDay msPerDay
  omega

theorem monthStartDelta (y m d : Int) (h1 : 1 ≤ m) (h2 : m ≤ 12) :
    28 ≤ daysFromCivil (y + m / 12) (m % 12 + 1) d - daysFromCivil y m d ∧
    daysFromCivil (y + m / 12) (m % 12 + 1) d - daysFromCivil y m d ≤ 31 := by
  unfold daysFromCivil
  dsimp only
  interval_cases m <;> constructor <;> (split_ifs <;> omega)

theorem jsSetMonth_next (t : Int) :
    msOfDay (jsSetMonth t (jsGetMonth t + 1)) = msOfDay t ∧
    t + 28 * msPerDay ≤ jsSetMonth t (jsGetMonth t + 1) ∧
    jsSetMonth t (jsGetMonth t + 1) ≤ t + 31 * msPerDay := by
  obtain ⟨hm1, hm2, hd1, hd2, hrt⟩ := civilFromDays_spec (timeDays t)
  obtain ⟨hD1, hD2⟩ := monthStartDelta (civilFromDays (timeDays t)).y
    (civilFromDays (timeDays t)).m (civilFromDays (timeDays t)).d hm1 hm2
  unfold jsSetMonth jsGetMonth jsGetFullYear jsGetDate civilOf
  have hm : (civilFromDays (timeDays t)).m - 1 + 1 = (civilFromDays (timeDays t)).m := by ring
  rw [hm]
  have hmsb : 0 ≤ msOfDay t ∧ msOfDay t < 86400000 := by
    unfold msOfDay msPerDay
    omega
  have hsplit : t = 86400000 * timeDays t + msOfDay t := by
    unfold msOfDay timeDays msPerDay
    omega
  have hmod : ∀ X : Int, msOfDay (86400000 * X + msOfDay t) = msOfDay t := by
    intro X
    unfold msOfDay msPerDay
    omega
  unfold msPerDay
  refine ⟨hmod _, ?_, ?_⟩ <;> omega

theorem yoeStartStep (x : Int) (hx0 : 0 ≤ x) (hx1 : x ≤ 398) :
    365 * (x + 1) + (x + 1) / 4 - (x + 1) / 100 =
      365 * x + x / 4 - x / 100 + 365 +
        (if (x + 1) % 4 = 0 ∧ ((x + 1) % 100 ≠ 0 ∨ x + 1 = 400) then 1 else 0) := by
  split_ifs <;> omega

theorem shiftedUnique (e1 q1 y1 e2 q2 y2 : Int)
    (hq1a : 0 ≤ q1) (hq1b : q1 ≤ 399) (hq2a : 0 ≤ q2) (hq2b : q2 ≤ 399)
    (hy1a : 0 ≤ y1)
    (hy1b : y1 ≤ 364 ∨ (y1 = 365 ∧ (q1 + 1) % 4 = 0 ∧ ((q1 + 1) % 100 ≠ 0 ∨ q1 + 1 = 400)))
    (hy2a : 0 ≤ y2)
    (hy2b : y2 ≤ 364 ∨ (y2 = 365 ∧ (q2 + 1) % 4 = 0 ∧ ((q2 + 1) % 100 ≠ 0 ∨ q2 + 1 = 400)))
    (heq : e1 * 146097 + (365 * q1 + q1 / 4 - q1 / 100 + y1) =
      e2 * 146097 + (365 * q2 + q2 / 4 - q2 / 100 + y2)) :
    e1 = e2 ∧ q1 = q2 ∧ y1 = y2 := by
  have he : e1 = e2 := by omega
  subst he
  have hd : q1 ≤ q2 + 1 ∧ q2 ≤ q1 + 1 := by omega
  rcases (by omega : q1 = q2 ∨ q2 = q1 + 1 ∨ q1 = q2 + 1) with h | h | h
  · subst h
    exact ⟨rfl, rfl, by omega⟩
  · subst h
    have hk := yoeStartStep q1 (by omega) (by omega)
    split_ifs at hk <;> omega
  · subst h
    have hk := yoeStartStep q2 (by omega) (by omega)
    split_ifs at hk <;> omega

theorem civilFromDays_daysFromCivil (y m d : Int) (hm1 : 1 ≤ m) (hm2 : m ≤ 12)
    (hd1 : 1 ≤ d) (hd2 : d ≤ 28) :
    civilFromDays (daysFromCivil y m d) = ⟨y, m, d⟩ := by
  obtain ⟨q, doy, hyoe, hdoy, hq0, hq1, hdy0, hdy1, hmpa, hmpb, hb0, hb1, hz, hciv⟩ :=
    civilFromDays_eq (daysFromCivil y m d)
  rw [hciv]
  set ys := y - (if m ≤ 2 then 1 else 0) with hys
  set era0 := ys / 400 with hera0
  set q0 := ys - era0 * 400 with hq0def
  set mp0 := m + (if 2 < m then -3 else 9) with hmp0def
  set doy0 := (153 * mp0 + 2) / 5 + d - 1 with hdoy0def
  have hzin : daysFromCivil y m d =
      era0 * 146097 + (365 * q0 + q0 / 4 - q0 / 100 + doy0) - 719468 := by
    unfold daysFromCivil
    dsimp only
    rw [← hys, ← hera0, ← hq0def, ← hmp0def]
    omega
  have hq0b : 0 ≤ q0 ∧ q0 ≤ 399 := by omega
  have hmp0b : 0 ≤ mp0 ∧ mp0 ≤ 11 := by
    rw [hmp0def]
    split_ifs <;> omega
  have hdoy0b : 0 ≤ doy0 ∧ doy0 ≤ 364 := by
    rw [hdoy0def]
    omega
  obtain ⟨hee, heq, hey⟩ := shiftedUnique (cfdEra (daysFromCivil y m d)) q doy era0 q0 doy0
    hq0 hq1 hq0b.1 hq0b.2 hdy0 hdy1 hdoy0b.1 (Or.inl hdoy0b.2) (by omega)
  have hmpz : cfdMp (daysFromCivil y m d) = mp0 := by
    unfold cfdMp
    rw [hdoy, hey, hdoy0def]
    omega
  rw [hmpz, heq, hey, hdoy0def, hee]
  simp only [Civil.mk.injEq]
  refine ⟨?_, ?_, ?_⟩ <;> (try split_ifs) <;> omega

theorem timeDays_recompose (x r : Int) (h0 : 0 ≤ r) (h1 : r < 86400000) :
    timeDays (86400000 * x + r) = x ∧ msOfDay (86400000 * x + r) = r := by
  unfold timeDays msOfDay msPerDay
  omega

theorem jsSetMonth_advance (t : Int) (hdle : jsGetDate t ≤ 28) :
    civilOf (jsSetMonth t (jsGetMonth t + 1)) =
      ⟨jsGetFullYear t + (civilOf t).m / 12, (civilOf t).m % 12 + 1, jsGetDate t⟩ := by
  obtain ⟨hm1, hm2, hd1, hd2, hrt⟩ := civilFromDays_spec (timeDays t)
  have hmsb : 0 ≤ msOfDay t ∧ msOfDay t < 86400000 := by
    unfold msOfDay msPerDay
    omega
  unfold jsGetDate civilOf at hdle
  unfold jsSetMonth jsGetMonth jsGetFullYear jsGetDate civilOf
  have hm : (civilFromDays (timeDays t)).m - 1 + 1 = (civilFromDays (timeDays t)).m := by ring
  rw [hm]
  unfold msPerDay
  rw [(timeDays_recompose (daysFromCivil
        ((civilFromDays (timeDays t)).y + (civilFromDays (timeDays t)).m / 12)
        ((civilFromDays (timeDays t)).m % 12 + 1) (civilFromDays (timeDays t)).d)
      (msOfDay t) hmsb.1 hmsb.2).1]
  exact civilFromDays_daysFromCivil _ _ _ (by omega) (by omega) hd1 hdle

/-! Lemmas about the execution update. -/

theorem calculateNext_only_fields (now : Int) (a b : ScheduledEmail)
    (h1 : a.scheduleType = b.scheduleType) (h2 : a.scheduledAt = b.scheduledAt)
    (h3 : a.intervalMinutes = b.intervalMinutes) :
    calculateNextScheduledTime now a = calculateNextScheduledTime now b := by
  unfold calculateNextScheduledTime
  rw [h1, h2, h3]

theorem execSuccessUpdate_spec (now : Int) (e : ScheduledEmail) :
    (execSuccessUpdate now e).id = e.id ∧
    (execSuccessUpdate now e).scheduleType = e.scheduleType ∧
    (execSuccessUpdate now e).intervalMinutes = e.intervalMinutes ∧
    (execSuccessUpdate now e).maxSendCount = e.maxSendCount ∧
    (execSuccessUpdate now e).sendCount = e.sendCount + 1 ∧
    (execSuccessUpdate now e).scheduledAt = calculateNextScheduledTime now e ∧
    (execSuccessUpdate now e).status =
      (match e.maxSendCount with
       | some m =>
         if e.scheduleType = ScheduleType.once ∨ m ≤ e.sendCount + 1 then TaskStatus.sent
         else e.status
       | none =>
         if e.scheduleType = ScheduleType.once then TaskStatus.sent else e.status) := by
  cases hmax : e.maxSendCount with
  | none =>
    by_cases honce : e.scheduleType = ScheduleType.once <;>
      refine ⟨?_, ?_, ?_, ?_, ?_, ?_, ?_⟩ <;>
        simp [execSuccessUpdate, hmax, honce] <;>
        exact calculateNext_only_fields now _ e (by simp [honce]) rfl rfl
  | some m =>
    by_cases honce : e.scheduleType = ScheduleType.once <;>
      by_cases hcap : m ≤ e.sendCount + 1 <;>
        refine ⟨?_, ?_, ?_, ?_, ?_, ?_, ?_⟩ <;>
          simp [execSuccessUpdate, hmax, honce, hcap] <;>
          exact calculateNext_only_fields now _ e (by simp [honce]) rfl rfl

theorem calcNext_daily_eq (now : Int) (e : ScheduledEmail)
    (h : e.scheduleType = ScheduleType.daily) :
    calculateNextScheduledTime now e = e.scheduledAt + 86400000 := by
  simp only [calculateNextScheduledTime, h]
  have := jsSetDate_add e.scheduledAt 1
  unfold msPerDay at this
  omega

theorem calcNext_weekly_eq (now : Int) (e : ScheduledEmail)
    (h : e.scheduleType = ScheduleType.weekly) :
    calculateNextScheduledTime now e = e.scheduledAt + 7 * 86400000 := by
  simp only [calculateNextScheduledTime, h]
  have := jsSetDate_add e.scheduledAt 7
  unfold msPerDay at this
  omega

theorem calcNext_monthly_spec (now : Int) (e : ScheduledEmail)
    (h : e.scheduleType = ScheduleType.monthly) :
    msOfDay (calculateNextScheduledTime now e) = msOfDay e.scheduledAt ∧
    e.scheduledAt + 28 * 86400000 ≤ calculateNextScheduledTime now e ∧
    calculateNextScheduledTime now e ≤ e.scheduledAt + 31 * 86400000 ∧
    (jsGetDate e.scheduledAt ≤ 28 →
      civilOf (calculateNextScheduledTime now e) =
        ⟨(civilOf e.scheduledAt).y + (civilOf e.scheduledAt).m / 12,
          (civilOf e.scheduledAt).m % 12 + 1, jsGetDate e.scheduledAt⟩) := by
  simp only [calculateNextScheduledTime, h]
  obtain ⟨h1, h2, h3⟩ := jsSetMonth_next e.scheduledAt
  unfold msPerDay at h2 h3
  exact ⟨h1, h2, h3, fun hd => jsSetMonth_advance e.scheduledAt hd⟩

theorem calcNext_interval_eq (now : Int) (e : ScheduledEmail) (k : Int)
    (ht : e.scheduleType = ScheduleType.interval) (hk : e.intervalMinutes = some k)
    (hkpos : 0 < k) :
    calculateNextScheduledTime now e = now + k * 60000 := by
  unfold calculateNextScheduledTime
  rw [ht, hk]
  simp [hkpos]

/-- C3: for an interval task with positive intervalMinutes, the scheduledAt
written after a successful execution is the execution wall-clock time plus
intervalMinutes (in milliseconds), not the old scheduledAt plus the interval. -/
theorem c3_interval_anchored_to_now (now : Int) (e : ScheduledEmail) (k : Int)
    (ht : e.scheduleType = ScheduleType.interval) (hk : e.intervalMinutes = some k)
    (hkpos : 0 < k) :
    calculateNextScheduledTime now e = now + k * 60000 ∧
    (execSuccessUpdate now e).scheduledAt = now + k * 60000 := by
  have hcalc := calcNext_interval_eq now e k ht hk hkpos
  exact ⟨hcalc, by rw [(execSuccessUpdate_spec now e).2.2.2.2.2.1, hcalc]⟩

/-- C3 witness: an interval task with a five-minute interval executed at
wall-clock 1000 is rescheduled to 1000 + 300000. -/
theorem c3_interval_anchored_to_now_witness :
    calculateNextScheduledTime 1000 sampleInterval = 1000 + 5 * 60000 ∧
    (execSuccessUpdate 1000 sampleInterval).scheduledAt = 1000 + 5 * 60000 :=
  c3_interval_anchored_to_now 1000 sampleInterval 5 rfl rfl (by decide)

/-- C4: for daily, weekly and monthly tasks the next scheduled time computed
after a successful execution is the previous scheduledAt plus one day, seven
days, or one calendar month (same time of day, day of month kept, rolling per
the date normalisation, between 28 and 31 days later), independent of the wall
clock passed to the computation; a daily task at T always moves to T + 24h. -/
theorem c4_calendar_recurrence (e : ScheduledEmail) (now now2 : Int)
    (ht : e.scheduleType = ScheduleType.daily ∨ e.scheduleType = ScheduleType.weekly ∨
      e.scheduleType = ScheduleType.monthly) :
    calculateNextScheduledTime now e = calculateNextScheduledTime now2 e ∧
    (e.scheduleType = ScheduleType.daily →
      calculateNextScheduledTime now e = e.scheduledAt + 86400000) ∧
    (e.scheduleType = ScheduleType.weekly →
      calculateNextScheduledTime now e = e.scheduledAt + 7 * 86400000) ∧
    (e.scheduleType = ScheduleType.monthly →
      msOfDay (calculateNextScheduledTime now e) = msOfDay e.scheduledAt ∧
      e.scheduledAt + 28 * 86400000 ≤ calculateNextScheduledTime now e ∧
      calculateNextScheduledTime now e ≤ e.scheduledAt + 31 * 86400000 ∧
      (jsGetDate e.scheduledAt ≤ 28 →
        civilOf (calculateNextScheduledTime now e) =
          ⟨(civilOf e.scheduledAt).y + (civilOf e.scheduledAt).m / 12,
            (civilOf e.scheduledAt).m % 12 + 1, jsGetDate e.scheduledAt⟩)) := by
  refine ⟨?_, fun h => calcNext_daily_eq now e h, fun h => calcNext_weekly_eq now e h,
    fun h => calcNext_monthly_spec now e h⟩
  rcases ht with h | h | h <;> simp [calculateNextScheduledTime, h]

/-- C4 witness: a daily task scheduled at the epoch is rescheduled to one day
after the epoch, whatever the wall clock reads. -/
theorem c4_calendar_recurrence_witness :
    calculateNextScheduledTime 0 sampleTask = calculateNextScheduledTime 999 sampleTask ∧
    (sampleTask.scheduleType = ScheduleType.daily →
      calculateNextScheduledTime 0 sampleTask = sampleTask.scheduledAt + 86400000) ∧
    (sampleTask.scheduleType = ScheduleType.weekly →
      calculateNextScheduledTime 0 sampleTask = sampleTask.scheduledAt + 7 * 86400000) ∧
    (sampleTask.scheduleType = ScheduleType.monthly →
      msOfDay (calculateNextScheduledTime 0 sampleTask) = msOfDay sampleTask.scheduledAt ∧
      sampleTask.scheduledAt + 28 * 86400000 ≤ calculateNextScheduledTime 0 sampleTask ∧
      calculateNextScheduledTime 0 sampleTask ≤ sampleTask.scheduledAt + 31 * 86400000 ∧
      (jsGetDate sampleTask.scheduledAt ≤ 28 →
        civilOf (calculateNextScheduledTime 0 sampleTask) =
          ⟨(civilOf sampleTask.scheduledAt).y + (civilOf sampleTask.scheduledAt).m / 12,
            (civilOf sampleTask.scheduledAt).m % 12 + 1, jsGetDate sampleTask.scheduledAt⟩)) :=
  c4_calendar_recurrence sampleTask 0 999 (Or.inl rfl)

/-- C6 (amended): after a successful execution the new scheduledAt is strictly
later than the previous one for daily, weekly and monthly tasks always, and
for interval tasks whenever the execution happens at or after the scheduled
time (as on the scheduler path) with a positive intervalMinutes. For a once
task, and for an interval task without positive intervalMinutes, scheduledAt
is left unchanged; an early manual execution of an interval task can move
scheduledAt backwards (see the counterexample). -/
theorem c6_advance_strictly_forward (e : ScheduledEmail) (now : Int)
    (ht : e.scheduleType ≠ ScheduleType.once)
    (hint : e.scheduleType = ScheduleType.interval →
      e.scheduledAt ≤ now ∧ ∃ k, e.intervalMinutes = some k ∧ 0 < k) :
    e.scheduledAt < calculateNextScheduledTime now e ∧
    e.scheduledAt < (execSuccessUpdate now e).scheduledAt := by
  have hmain : e.scheduledAt < calculateNextScheduledTime now e := by
    cases hty : e.scheduleType with
    | once => exact absurd hty ht
    | daily =>
      have h := calcNext_daily_eq now e hty
      omega
    | weekly =>
      have h := calcNext_weekly_eq now e hty
      omega
    | monthly =>
      have h := (calcNext_monthly_spec now e hty).2.1
      omega
    | interval =>
      obtain ⟨hle, k, hk, hkpos⟩ := hint hty
      have h := calcNext_interval_eq now e k hty hk hkpos
      omega
  exact ⟨hmain, by rw [(execSuccessUpdate_spec now e).2.2.2.2.2.1]; exact hmain⟩

/-- C6 witness: a due daily task at the epoch moves strictly forward. -/
theorem c6_advance_strictly_forward_witness :
    sampleTask.scheduledAt < calculateNextScheduledTime 50 sampleTask ∧
    sampleTask.scheduledAt < (execSuccessUpdate 50 sampleTask).scheduledAt :=
  c6_advance_strictly_forward sampleTask 50 (by decide) (by intro h; cases h)

/-- C6 counterexample: the claim that scheduledAt never decreases fails on the
code. The interval task sampleInterval is scheduled at 1000000; executing it
successfully at wall-clock 0 (the manual execute-now path imposes no due-time
check) rewrites scheduledAt to 0 + 300000, strictly earlier than before. -/
theorem c6_counterexample :
    (executeScheduledEmail 0 "r1" { success := true, message := "ok" } sampleInterval
        { tasks := [sampleInterval], history := [] }).1.scheduledAt <
      sampleInterval.scheduledAt := by decide

/-! History statistics lemmas. -/

theorem statsStep_spec (s : EmailHistoryStats) (r : EmailHistory) :
    (statsStep s r).success + (statsStep s r).failed = s.success + s.failed + 1 ∧
    (statsStep s r).scheduled + (statsStep s r).manual + (statsStep s r).test =
      s.scheduled + s.manual + s.test + 1 ∧
    (statsStep s r).total = s.total := by
  cases hs : r.status <;> cases ht : r.sendType <;>
    simp [statsStep, hs, ht] <;> omega

theorem tallyStats_partition (records : List EmailHistory) :
    ∀ init : EmailHistoryStats,
      (tallyStats init records).success + (tallyStats init records).failed =
        init.success + init.failed + (records.length : Int) ∧
      (tallyStats init records).scheduled + (tallyStats init records).manual +
          (tallyStats init records).test =
        init.scheduled + init.manual + init.test + (records.length : Int) ∧
      (tallyStats init records).total = init.total := by
  induction records with
  | nil =>
    intro init
    simp [tallyStats]
  | cons r rs ih =>
    intro init
    have hstep := statsStep_spec init r
    have htail := ih (statsStep init r)
    simp only [tallyStats, List.foldl_cons, List.length_cons] at htail ⊢
    push_cast at htail ⊢
    refine ⟨by omega, by omega, by omega⟩

/-- C10: getStats partitions the retained records both by outcome and by send
type, and getTodayStats satisfies the same two identities over the records
whose sentAt falls on the current calendar day. -/
theorem c10_stats_partitions (history : List EmailHistory) (now : Int) :
    (getStats history).total = (getStats history).success + (getStats history).failed ∧
    (getStats history).total =
      (getStats history).scheduled + (getStats history).manual + (getStats history).test ∧
    (getStats history).total = (history.length : Int) ∧
    (getTodayStats now history).total =
      (getTodayStats now history).success + (getTodayStats now history).failed ∧
    (getTodayStats now history).total =
      (getTodayStats now history).scheduled + (getTodayStats now history).manual +
        (getTodayStats now history).test ∧
    (getTodayStats now history).total =
      ((history.filter fun h => sameLocalDay h.sentAt now).length : Int) := by
  obtain ⟨g1, g2, g3⟩ := tallyStats_partition history
    { total := (history.length : Int), success := 0, failed := 0,
      scheduled := 0, manual := 0, test := 0 }
  obtain ⟨t1, t2, t3⟩ := tallyStats_partition (history.filter fun h => sameLocalDay h.sentAt now)
    { total := ((history.filter fun h => sameLocalDay h.sentAt now).length : Int), success := 0,
      failed := 0, scheduled := 0, manual := 0, test := 0 }
  unfold getStats getTodayStats
  dsimp only at g1 g2 g3 t1 t2 t3 ⊢
  refine ⟨by omega, by omega, by omega, by omega, by omega, by omega⟩

theorem addRecord_length (record : EmailHistory) (history : List EmailHistory) :
    (addRecord record history).length = min (history.length + 1) 1000 := by
  unfold addRecord
  dsimp only
  by_cases h : 1000 < (record :: history).length
  · rw [if_pos h]
    simp only [List.length_take, List.length_cons] at h ⊢
    omega
  · rw [if_neg h]
    simp only [List.length_cons] at h ⊢
    omega

/-- C8: addRecord prepends the new record and truncates to 1000 kept records:
the new length is min(previous + 1, 1000), the new record sits at position 0,
and when the store already holds 1000 records the oldest (last) one is
dropped. -/
theorem c8_addRecord_prepend_cap (record : EmailHistory) (history : List EmailHistory) :
    (addRecord record history).length = min (history.length + 1) 1000 ∧
    (addRecord record history).head? = some record ∧
    (history.length = 1000 →
      addRecord record history = record :: history.dropLast ∧
      (addRecord record history).length = 1000) := by
  refine ⟨addRecord_length record history, ?_⟩
  unfold addRecord
  dsimp only
  by_cases h : 1000 < (record :: history).length
  · rw [if_pos h]
    simp only [List.length_cons] at h
    refine ⟨?_, ?_⟩
    · rw [show (1000 : Nat) = 999 + 1 from rfl, List.take_succ_cons]
      rfl
    · intro hlen
      constructor
      · rw [show (1000 : Nat) = 999 + 1 from rfl, List.take_succ_cons,
          List.dropLast_eq_take, hlen]
      · simp only [List.length_take, List.length_cons]
        omega

  · rw [if_neg h]
    simp only [List.length_cons] at h
    refine ⟨rfl, ?_⟩
    intro hlen
    omega

/-- C8 witness: adding a 1001st record to a full store of 1000 keeps 1000
records, puts the new record first and drops the last one. -/
theorem c8_addRecord_prepend_cap_witness :
    (addRecord sampleRecord (List.replicate 1000 sampleRecord)).length =
      min ((List.replicate 1000 sampleRecord).length + 1) 1000 ∧
    (addRecord sampleRecord (List.replicate 1000 sampleRecord)).head? = some sampleRecord ∧
    ((List.replicate 1000 sampleRecord).length = 1000 →
      addRecord sampleRecord (List.replicate 1000 sampleRecord) =
        sampleRecord :: (List.replicate 1000 sampleRecord).dropLast ∧
      (addRecord sampleRecord (List.replicate 1000 sampleRecord)).length = 1000) :=
  c8_addRecord_prepend_cap sampleRecord (List.replicate 1000 sampleRecord)

/-- C7: every run of executeScheduledEmail, successful or failed, adds exactly
one history record on top of the (possibly truncated) previous history; the
record is tagged scheduled, carries the executed task id, and is marked
success exactly when the dispatcher reported success. -/
theorem c7_execute_writes_one_record (now : Int) (recId : String) (res : SendResult)
    (e : ScheduledEmail) (st : SystemState) :
    ∃ r, (executeScheduledEmail now recId res e st).2.history =
        r :: (if 1000 ≤ st.history.length then st.history.take 999 else st.history) ∧
      r.sendType = EmailSendType.scheduled ∧
      r.scheduledEmailId = some e.id ∧
      (r.status = EmailSendStatus.success ↔ res.success = true) ∧
      (executeScheduledEmail now recId res e st).2.history.length =
        min (st.history.length + 1) 1000 := by
  refine ⟨mkScheduledRecord recId now e res, ?_, rfl, rfl, ?_, ?_⟩
  · show addRecord (mkScheduledRecord recId now e res) st.history = _
    unfold addRecord
    dsimp only
    by_cases h : 1000 < (mkScheduledRecord recId now e res :: st.history).length
    · simp only [List.length_cons] at h
      rw [if_pos (by simp only [List.length_cons]; omega), if_pos (by omega),
        show (1000 : Nat) = 999 + 1 from rfl, List.take_succ_cons]
    · simp only [List.length_cons] at h
      rw [if_neg (by simp only [List.length_cons]; omega), if_neg (by omega)]
  · cases hres : res.success <;> simp [mkScheduledRecord, hres]
  · exact addRecord_length (mkScheduledRecord recId now e res) st.history

/-- C7 witness: executing the sample task against an empty history yields one
scheduled record carrying its id. -/
theorem c7_execute_writes_one_record_witness :
    ∃ r, (executeScheduledEmail 0 "r1" { success := true, message := "ok" } sampleTask
          { tasks := [sampleTask], history := [] }).2.history =
        r :: (if 1000 ≤ ([] : List EmailHistory).length
          then ([] : List EmailHistory).take 999 else ([] : List EmailHistory)) ∧
      r.sendType = EmailSendType.scheduled ∧
      r.scheduledEmailId = some sampleTask.id ∧
      (r.status = EmailSendStatus.success ↔
        ({ success := true, message := "ok" } : SendResult).success = true) ∧
      (executeScheduledEmail 0 "r1" { success := true, message := "ok" } sampleTask
          { tasks := [sampleTask], history := [] }).2.history.length =
        min (([] : List EmailHistory).length + 1) 1000 :=
  c7_execute_writes_one_record 0 "r1" { success := true, message := "ok" } sampleTask
    { tasks := [sampleTask], history := [] }

/-! Lemmas about the store write and the scheduler tick. -/

theorem executeScheduledEmail_shape (now : Int) (recId : String) (res : SendResult)
    (e : ScheduledEmail) (st : SystemState) :
    (executeScheduledEmail now recId res e st).2.tasks =
      replaceFirst st.tasks (executeScheduledEmail now recId res e st).1 ∧
    (executeScheduledEmail now recId res e st).2.history =
      addRecord (mkScheduledRecord recId now e res) st.history ∧
    (executeScheduledEmail now recId res e st).1.id = e.id := by
  refine ⟨rfl, rfl, ?_⟩
  cases hres : res.success
  · simp [executeScheduledEmail, hres, execFailureUpdate]
  · simp [executeScheduledEmail, hres, (execSuccessUpdate_spec now e).1]

theorem replaceFirst_filter_ne (i : String) (e : ScheduledEmail) (hne : e.id ≠ i) :
    ∀ tasks : List ScheduledEmail,
      (replaceFirst tasks e).filter (fun t => decide (t.id = i)) =
        tasks.filter (fun t => decide (t.id = i)) := by
  intro tasks
  induction tasks with
  | nil => rfl
  | cons t ts ih =>
    unfold replaceFirst
    by_cases ht : t.id = e.id
    · rw [if_pos ht]
      have h1 : ¬ (e.id = i) := hne
      have h2 : ¬ (t.id = i) := by rw [ht]; exact hne
      simp [List.filter_cons, h1, h2]
    · rw [if_neg ht]
      simp [List.filter_cons, ih]

theorem addRecord_mem (r x : EmailHistory) (h : List EmailHistory)
    (hx : x ∈ addRecord r h) : x = r ∨ x ∈ h := by
  unfold addRecord at hx
  dsimp only at hx
  split_ifs at hx with hc
  · have hx2 : x ∈ r :: h := List.take_subset _ _ hx
    rcases List.mem_cons.mp hx2 with h1 | h2
    · exact Or.inl h1
    · exact Or.inr h2
  · rcases List.mem_cons.mp hx with h1 | h2
    · exact Or.inl h1
    · exact Or.inr h2

theorem tickFold_id_untouched (now : Int) (dispatch : ScheduledEmail → SendResult)
    (recId : ScheduledEmail → String) (i : String) :
    ∀ (L : List ScheduledEmail) (st : SystemState), (∀ e ∈ L, e.id ≠ i) →
      ((L.foldl (fun s e =>
          if e.status = TaskStatus.pending
          then (executeScheduledEmail now (recId e) (dispatch e) e s).2 else s) st).tasks.filter
            (fun t => decide (t.id = i)) =
        st.tasks.filter (fun t => decide (t.id = i))) ∧
      (∀ r ∈ (L.foldl (fun s e =>
          if e.status = TaskStatus.pending
          then (executeScheduledEmail now (recId e) (dispatch e) e s).2 else s) st).history,
        r.scheduledEmailId = some i → r ∈ st.history) := by
  intro L
  induction L with
  | nil => exact fun st h => ⟨rfl, fun r hr hid => hr⟩
  | cons e L ih =>
    intro st h
    simp only [List.foldl_cons]
    have hei : e.id ≠ i := h e (List.mem_cons_self e L)
    have htail : ∀ x ∈ L, x.id ≠ i := fun x hx => h x (List.mem_cons_of_mem e hx)
    by_cases hp : e.status = TaskStatus.pending
    · rw [if_pos hp]
      obtain ⟨sh1, sh2, sh3⟩ := executeScheduledEmail_shape now (recId e) (dispatch e) e st
      obtain ⟨ih1, ih2⟩ := ih (executeScheduledEmail now (recId e) (dispatch e) e st).2 htail
      constructor
      · rw [ih1, sh1]
        exact replaceFirst_filter_ne i _ (by rw [sh3]; exact hei) st.tasks
      · intro r hr hid
        have h2 := ih2 r hr hid
        rw [sh2] at h2
        rcases addRecord_mem _ r st.history h2 with heq | hin
        · exfalso
          have : r.scheduledEmailId = some e.id := by rw [heq]; rfl
          rw [this] at hid
          exact hei (Option.some.inj hid)
        · exact hin
    · rw [if_neg hp]
      exact ih st htail

theorem filter_pending_ne (st : SystemState) (now : Int) (i : String)
    (hterm : ∀ e ∈ st.tasks, e.id = i →
      e.status = TaskStatus.sent ∨ e.status = TaskStatus.cancelled) :
    ∀ e ∈ st.tasks.filter (fun e =>
      decide (e.status = TaskStatus.pending) && shouldExecute now e), e.id ≠ i := by
  intro e he
  obtain ⟨hmem, hpred⟩ := List.mem_filter.mp he
  intro hid
  rcases hterm e hmem hid with hs | hs <;>
    simp [hs, shouldExecute] at hpred

theorem deleteScheduledEmail_subset (i : String) :
    ∀ (tasks : List ScheduledEmail) (e : ScheduledEmail),
      e ∈ (deleteScheduledEmail i tasks).2 → e ∈ tasks := by
  intro tasks
  induction tasks with
  | nil => intro e he; simp [deleteScheduledEmail] at he
  | cons t ts ih =>
    intro e he
    unfold deleteScheduledEmail at he
    by_cases h : t.id = i
    · rw [if_pos h] at he
      exact List.mem_cons_of_mem t he
    · rw [if_neg h] at he
      dsimp only at he
      rcases List.mem_cons.mp he with h1 | h2
      · exact h1 ▸ List.mem_cons_self t ts
      · exact List.mem_cons_of_mem t (ih e h2)

/-- C1: a once task goes to sent on its first successful execution, its
scheduledAt is left in place, and a scheduler tick leaves every task whose id
carries status sent untouched and adds no scheduled history record for that
id. -/
theorem c1_once_task_terminal :
    (∀ (now : Int) (recId : String) (res : SendResult) (e : ScheduledEmail) (st : SystemState),
      res.success = true → e.scheduleType = ScheduleType.once →
      (executeScheduledEmail now recId res e st).1.status = TaskStatus.sent ∧
      (executeScheduledEmail now recId res e st).1.scheduledAt = e.scheduledAt) ∧
    (∀ (now : Int) (dispatch : ScheduledEmail → SendResult) (recId : ScheduledEmail → String)
      (st : SystemState) (i : String),
      (∀ e ∈ st.tasks, e.id = i → e.status = TaskStatus.sent) →
      (checkAndExecuteScheduledEmails now dispatch recId st).tasks.filter
          (fun t => decide (t.id = i)) = st.tasks.filter (fun t => decide (t.id = i)) ∧
      ∀ r ∈ (checkAndExecuteScheduledEmails now dispatch recId st).history,
        r.scheduledEmailId = some i → r ∈ st.history) := by
  constructor
  · intro now recId res e st hres honce
    have hexec : (executeScheduledEmail now recId res e st).1 = execSuccessUpdate now e := by
      simp [executeScheduledEmail, hres]
    rw [hexec]
    constructor
    · rw [(execSuccessUpdate_spec now e).2.2.2.2.2.2]
      cases hmax : e.maxSendCount <;> simp [honce]
    · rw [(execSuccessUpdate_spec now e).2.2.2.2.2.1]
      unfold calculateNextScheduledTime
      rw [honce]
  · intro now dispatch recId st i hterm
    have hne := filter_pending_ne st now i (fun e he hid => Or.inl (hterm e he hid))
    unfold checkAndExecuteScheduledEmails
    exact tickFold_id_untouched now dispatch recId i _ st hne

/-- C1 witness: after a successful run the sample once task reads sent, and a
tick over a store holding only the finalised task changes nothing for its id
and logs nothing for it. -/
theorem c1_once_task_terminal_witness :
    ((executeScheduledEmail 0 "r1" { success := true, message := "ok" } sampleOnce
        { tasks := [sampleOnce], history := [] }).1.status = TaskStatus.sent ∧
      (executeScheduledEmail 0 "r1" { success := true, message := "ok" } sampleOnce
        { tasks := [sampleOnce], history := [] }).1.scheduledAt = sampleOnce.scheduledAt) ∧
    ((checkAndExecuteScheduledEmails 50 (fun _ => { success := true, message := "ok" })
          (fun _ => "r2") { tasks := [sampleSent], history := [] }).tasks.filter
        (fun t => decide (t.id = "t1")) =
      ([sampleSent].filter fun t => decide (t.id = "t1")) ∧
      ∀ r ∈ (checkAndExecuteScheduledEmails 50 (fun _ => { success := true, message := "ok" })
          (fun _ => "r2") { tasks := [sampleSent], history := [] }).history,
        r.scheduledEmailId = some "t1" → r ∈ ([] : List EmailHistory)) :=
  ⟨c1_once_task_terminal.1 0 "r1" { success := true, message := "ok" } sampleOnce
      { tasks := [sampleOnce], history := [] } rfl rfl,
    c1_once_task_terminal.2 50 (fun _ => { success := true, message := "ok" }) (fun _ => "r2")
      { tasks := [sampleSent], history := [] } "t1" (by decide)⟩

theorem updName_status (p : UpdateScheduledEmailParams) (e : ScheduledEmail) :
    (updName p e).status = e.status := by
  unfold updName updField
  cases p.name <;> rfl

theorem updTo_status (p : UpdateScheduledEmailParams) (e : ScheduledEmail) :
    (updTo p e).status = e.status := by
  unfold updTo updField
  cases p.to <;> rfl

theorem updSubject_status (p : UpdateScheduledEmailParams) (e : ScheduledEmail) :
    (updSubject p e).status = e.status := by
  unfold updSubject updField
  cases p.subject <;> rfl

theorem updText_status (p : UpdateScheduledEmailParams) (e : ScheduledEmail) :
    (updText p e).status = e.status := by
  unfold updText updField
  cases p.text <;> rfl

theorem updHtml_status (p : UpdateScheduledEmailParams) (e : ScheduledEmail) :
    (updHtml p e).status = e.status := by
  unfold updHtml updField
  cases p.html <;> rfl

theorem updAttachments_status (p : UpdateScheduledEmailParams) (e : ScheduledEmail) :
    (updAttachments p e).status = e.status := by
  unfold updAttachments updField
  cases p.attachments <;> rfl

theorem updScheduleType_status (p : UpdateScheduledEmailParams) (e : ScheduledEmail) :
    (updScheduleType p e).status = e.status := by
  unfold updScheduleType updField
  cases p.scheduleType <;> rfl

theorem updScheduledAt_status (p : UpdateScheduledEmailParams) (e : ScheduledEmail) :
    (updScheduledAt p e).status = e.status := by
  unfold updScheduledAt updField
  cases p.scheduledAt <;> rfl

theorem updIntervalMinutes_status (p : UpdateScheduledEmailParams) (e : ScheduledEmail) :
    (updIntervalMinutes p e).status = e.status := by
  unfold updIntervalMinutes updField
  cases p.intervalMinutes <;> rfl

theorem updWeekday_status (p : UpdateScheduledEmailParams) (e : ScheduledEmail) :
    (updWeekday p e).status = e.status := by
  unfold updWeekday updField
  cases p.weekday <;> rfl

theorem updDayOfMonth_status (p : UpdateScheduledEmailParams) (e : ScheduledEmail) :
    (updDayOfMonth p e).status = e.status := by
  unfold updDayOfMonth updField
  cases p.dayOfMonth <;> rfl

theorem updStatus_none (p : UpdateScheduledEmailParams) (e : ScheduledEmail)
    (h : p.status = none) : updStatus p e = e := by
  unfold updStatus updField
  rw [h]

theorem updMaxSendCount_status (p : UpdateScheduledEmailParams) (e : ScheduledEmail) :
    (updMaxSendCount p e).status = e.status := by
  unfold updMaxSendCount updField
  cases p.maxSendCount <;> rfl

/-- C5 (amended): sent and cancelled are preserved by every lifecycle
operation except an update that explicitly carries a status field: an update
without a status field keeps the status, a successful execution yields pending
only when the task already was pending, a failed execution yields failed,
cancellation yields cancelled, deletion only removes tasks, and a scheduler
tick leaves every task whose id carries a terminal status untouched. An update
carrying status pending revives even a cancelled or sent task (see the
counterexample), so cancellation is reversible through updateScheduledEmail. -/
theorem c5_terminal_status_preservation :
    (∀ (p : UpdateScheduledEmailParams) (e : ScheduledEmail), p.status = none →
      (applyUpdateParams p e).status = e.status) ∧
    (∀ (now : Int) (e : ScheduledEmail),
      (execSuccessUpdate now e).status = TaskStatus.pending →
      e.status = TaskStatus.pending) ∧
    (∀ (msg : String) (e : ScheduledEmail),
      (execFailureUpdate msg e).status = TaskStatus.failed) ∧
    (∀ e : ScheduledEmail, (applyUpdateParams cancelParams e).status = TaskStatus.cancelled) ∧
    (∀ (i : String) (tasks : List ScheduledEmail) (e : ScheduledEmail),
      e ∈ (deleteScheduledEmail i tasks).2 → e ∈ tasks) ∧
    (∀ (now : Int) (dispatch : ScheduledEmail → SendResult)
        (recId : ScheduledEmail → String) (st : SystemState) (i : String),
      (∀ e ∈ st.tasks, e.id = i →
        e.status = TaskStatus.sent ∨ e.status = TaskStatus.cancelled) →
      (checkAndExecuteScheduledEmails now dispatch recId st).tasks.filter
          (fun t => decide (t.id = i)) = st.tasks.filter (fun t => decide (t.id = i))) := by
  refine ⟨?_, ?_, ?_, ?_, ?_, ?_⟩
  · intro p e h
    unfold applyUpdateParams
    rw [updMaxSendCount_status, updStatus_none p _ h, updDayOfMonth_status,
      updWeekday_status, updIntervalMinutes_status, updScheduledAt_status,
      updScheduleType_status, updAttachments_status, updHtml_status, updText_status,
      updSubject_status, updTo_status, updName_status]
  · intro now e hp
    rw [(execSuccessUpdate_spec now e).2.2.2.2.2.2] at hp
    revert hp
    cases hmax : e.maxSendCount <;> dsimp only <;> split_ifs <;> intro hp <;>
      first
        | exact hp
        | exact absurd hp (by decide)
  · intro msg e
    rfl
  · intro e
    rfl
  · exact fun i tasks e h => deleteScheduledEmail_subset i tasks e h
  · intro now dispatch recId st i hterm
    have hne := filter_pending_ne st now i hterm
    unfold checkAndExecuteScheduledEmails
    exact (tickFold_id_untouched now dispatch recId i _ st hne).1

/-- C5 witness: a rename-only update keeps the pending status, execution
facts instantiated on the sample task, cancel and tick behaviour on concrete
stores. -/
theorem c5_terminal_status_preservation_witness :
    (applyUpdateParams renameParams sampleTask).status = sampleTask.status ∧
    sampleTask.status = TaskStatus.pending ∧
    (execFailureUpdate "boom" sampleTask).status = TaskStatus.failed ∧
    (applyUpdateParams cancelParams sampleTask).status = TaskStatus.cancelled ∧
    (∀ e ∈ (deleteScheduledEmail "t1" [sampleTask]).2, e ∈ [sampleTask]) ∧
    (checkAndExecuteScheduledEmails 50 (fun _ => { success := true, message := "ok" })
        (fun _ => "r2") { tasks := [sampleCancelled], history := [] }).tasks.filter
      (fun t => decide (t.id = "t1")) =
      ([sampleCancelled].filter fun t => decide (t.id = "t1")) :=
  ⟨c5_terminal_status_preservation.1 renameParams sampleTask rfl,
    c5_terminal_status_preservation.2.1 0 sampleTask (by decide),
    c5_terminal_status_preservation.2.2.1 "boom" sampleTask,
    c5_terminal_status_preservation.2.2.2.1 sampleTask,
    c5_terminal_status_preservation.2.2.2.2.1 "t1" [sampleTask],
    c5_terminal_status_preservation.2.2.2.2.2 50 (fun _ => { success := true, message := "ok" })
      (fun _ => "r2") { tasks := [sampleCancelled], history := [] } "t1" (by decide)⟩

/-- C5 counterexample: the claim that a cancelled task can never return to
pending fails on the code. updateScheduledEmail applies an explicit status
field unconditionally, so updating the cancelled sample task with status
pending returns it to pending. -/
theorem c5_counterexample :
    sampleCancelled.status = TaskStatus.cancelled ∧
    ((updateScheduledEmail "t1" reviveParams [sampleCancelled]).1.map fun e => e.status) =
      some TaskStatus.pending ∧
    ((updateScheduledEmail "t1" reviveParams [sampleCancelled]).2.map fun e => e.status) =
      [TaskStatus.pending] := by decide

theorem applyUpdateParams_cancel (e : ScheduledEmail) :
    applyUpdateParams cancelParams e = { e with status := TaskStatus.cancelled } := rfl

theorem capExact (now m : Int) (e : ScheduledEmail) (hm : e.maxSendCount = some m)
    (hlt : e.sendCount < m) (hp : e.status = TaskStatus.pending)
    (ht : e.scheduleType ≠ ScheduleType.once) :
    (execSuccessUpdate now e).status = TaskStatus.sent ↔ e.sendCount + 1 = m := by
  rw [(execSuccessUpdate_spec now e).2.2.2.2.2.2, hm]
  dsimp only
  split_ifs with hcond
  · rcases hcond with honce | hc
    · exact absurd honce ht
    · simp only [true_iff]
      omega
  · rw [hp]
    constructor
    · intro hps
      exact absurd hps (by decide)
    · intro heq
      exact absurd (Or.inr (by omega)) hcond

/-- C2 (amended): for a task created with a positive cap m, under the
scheduler lifecycle (successful or failed due executions and cancellation,
with no administrative field updates) the cap is preserved, sendCount never
exceeds m, a pending task always has sendCount below m, and a recurring
(non-once) pending task transitions to sent on a successful execution exactly
when the new sendCount equals m. A once task may finalise to sent earlier, at
its first success (see the counterexample). -/
theorem c2_cap_enforced (e0 e : ScheduledEmail) (m : Int)
    (h0 : e0.sendCount = 0) (hm : e0.maxSendCount = some m) (hmpos : 0 < m)
    (hr : ReachableTask e0 e) :
    e.maxSendCount = some m ∧ e.sendCount ≤ m ∧
    (e.status = TaskStatus.pending → e.sendCount < m) ∧
    (∀ now : Int, e.status = TaskStatus.pending → e.scheduleType ≠ ScheduleType.once →
      ((execSuccessUpdate now e).status = TaskStatus.sent ↔ e.sendCount + 1 = m)) := by
  have main : e.maxSendCount = some m ∧ e.sendCount ≤ m ∧
      (e.status = TaskStatus.pending → e.sendCount < m) := by
    induction hr with
    | refl => exact ⟨hm, by omega, fun _ => by omega⟩
    | execSuccess e2 now hr2 hp hdue ih =>
      obtain ⟨ihm, ihle, ihlt⟩ := ih
      obtain ⟨hid, hty, hiv, hmax, hcnt, hsched, hstat⟩ := execSuccessUpdate_spec now e2
      have hlt := ihlt hp
      refine ⟨by rw [hmax]; exact ihm, by omega, ?_⟩
      intro hps
      rw [hstat, ihm] at hps
      revert hps
      dsimp only
      split_ifs with hcond
      · intro hps
        exact absurd hps (by decide)
      · intro hps
        have : ¬ m ≤ e2.sendCount + 1 := fun hc => hcond (Or.inr hc)
        omega
    | execFailure e2 now msg hr2 hp hdue ih =>
      obtain ⟨ihm, ihle, ihlt⟩ := ih
      exact ⟨ihm, by simp [execFailureUpdate]; omega, fun hps => absurd hps (by simp [execFailureUpdate])⟩
    | cancel e2 hr2 ih =>
      obtain ⟨ihm, ihle, ihlt⟩ := ih
      rw [applyUpdateParams_cancel]
      exact ⟨ihm, ihle, fun hps => absurd hps (by simp)⟩
  obtain ⟨hcm, hcle, hclt⟩ := main
  exact ⟨hcm, hcle, hclt, fun now hp ht => capExact now m e hcm (hclt hp) hp ht⟩

/-- C2 witness: the freshly created capped daily task satisfies the cap
invariant and the exact-transition characterisation. -/
theorem c2_cap_enforced_witness :
    sampleDailyCapped.maxSendCount = some 3 ∧ sampleDailyCapped.sendCount ≤ 3 ∧
    (sampleDailyCapped.status = TaskStatus.pending → sampleDailyCapped.sendCount < 3) ∧
    (∀ now : Int, sampleDailyCapped.status = TaskStatus.pending →
      sampleDailyCapped.scheduleType ≠ ScheduleType.once →
      ((execSuccessUpdate now sampleDailyCapped).status = TaskStatus.sent ↔
        sampleDailyCapped.sendCount + 1 = 3)) :=
  c2_cap_enforced sampleDailyCapped sampleDailyCapped 3 rfl rfl (by decide)
    (ReachableTask.refl sampleDailyCapped)

/-- C2 counterexample: the claim that status becomes sent exactly when
sendCount reaches maxSendCount fails for a once task: with a cap of 3, one
successful execution finalises the task to sent at sendCount 1. -/
theorem c2_counterexample :
    sampleOnceCapped.maxSendCount = some 3 ∧
    (execSuccessUpdate 0 sampleOnceCapped).status = TaskStatus.sent ∧
    (execSuccessUpdate 0 sampleOnceCapped).sendCount = 1 := by decide

/-- C9 (amended): validateScheduledEmailParams accepts exactly the parameter
sets satisfying the listed rules (nonempty trimmed name, to and subject, every
trimmed nonempty comma-separated recipient containing an at sign, parsable
scheduledAt, once strictly in the future, interval with positive
intervalMinutes, weekly with weekday 0-6, monthly with dayOfMonth 1-31,
positive maxSendCount when present) and, in addition, whose recipient list is
nonempty after splitting on commas, trimming and dropping empty entries; a to
field made only of commas and whitespace passes every listed rule yet is
rejected (see the counterexample). -/
theorem c9_validation_iff (parse : String → Option Int) (now : Int)
    (p : CreateScheduledEmailParams) (hparse : parse "" = none) :
    (validateScheduledEmailParams parse now p).valid = true ↔
      (specValidationRules parse now p ∧
        ((jsSplitComma p.to).map jsTrim).filter (fun r => decide (r ≠ "")) ≠ []) := by
  unfold validateScheduledEmailParams specValidationRules
  dsimp only
  by_cases h1 : jsTrim p.name = ""
  · rw [if_pos h1]
    refine iff_of_false (by simp) ?_
    intro hcon
    exact hcon.1.1 h1
  rw [if_neg h1]
  by_cases h2 : jsTrim p.to = ""
  · rw [if_pos h2]
    refine iff_of_false (by simp) ?_
    intro hcon
    exact hcon.1.2.1 h2
  rw [if_neg h2]
  by_cases h3 : (((jsSplitComma p.to).map jsTrim).filter fun r => decide (r ≠ "")).length = 0
  · rw [if_pos h3]
    refine iff_of_false (by simp) ?_
    intro hcon
    exact hcon.2 (List.length_eq_zero.mp h3)
  rw [if_neg h3]
  by_cases h4 : 0 < ((((jsSplitComma p.to).map jsTrim).filter fun r => decide (r ≠ "")).filter
      fun r => ! jsIncludesChar r '@').length
  · rw [if_pos h4]
    refine iff_of_false (by simp) ?_
    intro hcon
    obtain ⟨r, hr⟩ := List.exists_mem_of_length_pos h4
    have hr2 := List.mem_filter.mp hr
    have hat := hcon.1.2.2.2.1 r hr2.1
    rw [hat] at hr2
    exact absurd hr2.2 (by decide)
  rw [if_neg h4]
  by_cases h5 : jsTrim p.subject = ""
  · rw [if_pos h5]
    refine iff_of_false (by simp) ?_
    intro hcon
    exact hcon.1.2.2.1 h5
  rw [if_neg h5]
  by_cases h6 : p.scheduledAt = ""
  · rw [if_pos h6]
    refine iff_of_false (by simp) ?_
    intro hcon
    obtain ⟨ts, hts, _⟩ := hcon.1.2.2.2.2.1
    rw [h6, hparse] at hts
    cases hts
  rw [if_neg h6]
  have hNe : (((jsSplitComma p.to).map jsTrim).filter fun r => decide (r ≠ "")) ≠ [] := by
    intro hnil
    rw [hnil] at h3
    exact h3 rfl
  have hAt : ∀ r ∈ (((jsSplitComma p.to).map jsTrim).filter fun r => decide (r ≠ "")),
      jsIncludesChar r '@' = true := by
    intro r hr
    by_contra hno
    have hmem : r ∈ ((((jsSplitComma p.to).map jsTrim).filter fun r => decide (r ≠ "")).filter
        fun r => ! jsIncludesChar r '@') :=
      List.mem_filter.mpr ⟨hr, by simp [hno]⟩
    exact h4 (List.length_pos.mpr (List.ne_nil_of_mem hmem))
  cases hts : parse p.scheduledAt with
  | none =>
    dsimp only
    refine iff_of_false (by simp) ?_
    intro hcon
    obtain ⟨ts, hts2, _⟩ := hcon.1.2.2.2.2.1
    cases hts2
  | some ts =>
    dsimp only
    by_cases h8 : p.scheduleType = ScheduleType.once ∧ ts ≤ now
    · rw [if_pos h8]
      refine iff_of_false (by simp) ?_
      intro hcon
      obtain ⟨ts2, hts2, hfut⟩ := hcon.1.2.2.2.2.1
      have hts3 : ts = ts2 := Option.some.inj hts2
      subst hts3
      exact absurd (hfut h8.1) (by omega)
    · rw [if_neg h8]
      cases hst : p.scheduleType with
      | interval =>
        dsimp only
        by_cases hbad : intervalMinutesBad p = true
        · rw [if_pos hbad]
          refine iff_of_false (by simp) ?_
          intro hcon
          obtain ⟨k, hk, hkpos⟩ := hcon.1.2.2.2.2.2.1 rfl
          simp [intervalMinutesBad, hk] at hbad
          omega
        · rw [if_neg hbad]
          dsimp only
          by_cases hmb : maxSendCountBad p = true
          · rw [if_pos hmb]
            refine iff_of_false (by simp) ?_
            intro hcon
            cases hmc : p.maxSendCount with
            | none => simp [maxSendCountBad, hmc] at hmb
            | some c =>
              have := hcon.1.2.2.2.2.2.2.2.2 c hmc
              simp [maxSendCountBad, hmc] at hmb
              omega
          · rw [if_neg hmb]
            refine iff_of_true rfl ⟨⟨h1, h2, h5, hAt, ⟨ts, rfl, fun hco => absurd hco (by decide)⟩, ?_, ?_, ?_, ?_⟩, hNe⟩
            · intro _
              cases hk : p.intervalMinutes with
              | none => simp [intervalMinutesBad, hk] at hbad
              | some k =>
                refine ⟨k, rfl, ?_⟩
                simp [intervalMinutesBad, hk] at hbad
                omega
            · intro hw
              exact absurd hw (by decide)
            · intro hw
              exact absurd hw (by decide)
            · intro c hc
              simp [maxSendCountBad, hc] at hmb
              omega
      | weekly =>
        dsimp only
        by_cases hbad : weekdayBad p = true
        · rw [if_pos hbad]
          refine iff_of_false (by simp) ?_
          intro hcon
          obtain ⟨w, hw, hw0, hw6⟩ := hcon.1.2.2.2.2.2.2.1 rfl
          simp [weekdayBad, hw] at hbad
          omega
        · rw [if_neg hbad]
          dsimp only
          by_cases hmb : maxSendCountBad p = true
          · rw [if_pos hmb]
            refine iff_of_false (by simp) ?_
            intro hcon
            cases hmc : p.maxSendCount with
            | none => simp [maxSendCountBad, hmc] at hmb
            | some c =>
              have := hcon.1.2.2.2.2.2.2.2.2 c hmc
              simp [maxSendCountBad, hmc] at hmb
              omega
          · rw [if_neg hmb]
            refine iff_of_true rfl ⟨⟨h1, h2, h5, hAt, ⟨ts, rfl, fun hco => absurd hco (by decide)⟩, ?_, ?_, ?_, ?_⟩, hNe⟩
            · intro hw
              exact absurd hw (by decide)
            · intro _
              cases hw : p.weekday with
              | none => simp [weekdayBad, hw] at hbad
              | some w =>
                refine ⟨w, rfl, ?_⟩
                simp [weekdayBad, hw] at hbad
                omega
            · intro hw
              exact absurd hw (by decide)
            · intro c hc
              simp [maxSendCountBad, hc] at hmb
              omega
      | monthly =>
        dsimp only
        by_cases hbad : dayOfMonthBad p = true
        · rw [if_pos hbad]
          refine iff_of_false (by simp) ?_
          intro hcon
          obtain ⟨dm, hdm, hdm1, hdm31⟩ := hcon.1.2.2.2.2.2.2.2.1 rfl
          simp [dayOfMonthBad, hdm] at hbad
          omega
        · rw [if_neg hbad]
          dsimp only
          by_cases hmb : maxSendCountBad p = true
          · rw [if_pos hmb]
            refine iff_of_false (by simp) ?_
            intro hcon
            cases hmc : p.maxSendCount with
            | none => simp [maxSendCountBad, hmc] at hmb
            | some c =>
              have := hcon.1.2.2.2.2.2.2.2.2 c hmc
              simp [maxSendCountBad, hmc] at hmb
              omega
          · rw [if_neg hmb]
            refine iff_of_true rfl ⟨⟨h1, h2, h5, hAt, ⟨ts, rfl, fun hco => absurd hco (by decide)⟩, ?_, ?_, ?_, ?_⟩, hNe⟩
            · intro hw
              exact absurd hw (by decide)
            · intro hw
              exact absurd hw (by decide)
            · intro _
              cases hdm : p.dayOfMonth with
              | none => simp [dayOfMonthBad, hdm] at hbad
              | some dm =>
                refine ⟨dm, rfl, ?_⟩
                simp [dayOfMonthBad, hdm] at hbad
                omega
            · intro c hc
              simp [maxSendCountBad, hc] at hmb
              omega
      | once =>
        dsimp only
        by_cases hmb : maxSendCountBad p = true
        · rw [if_pos hmb]
          refine iff_of_false (by simp) ?_
          intro hcon
          cases hmc : p.maxSendCount with
          | none => simp [maxSendCountBad, hmc] at hmb
          | some c =>
            have := hcon.1.2.2.2.2.2.2.2.2 c hmc
            simp [maxSendCountBad, hmc] at hmb
            omega
        · rw [if_neg hmb]
          refine iff_of_true rfl ⟨⟨h1, h2, h5, hAt, ⟨ts, rfl, fun _ => by by_contra hn; exact h8 ⟨hst, by omega⟩⟩, ?_, ?_, ?_, ?_⟩, hNe⟩
          · intro hw
            exact absurd hw (by decide)
          · intro hw
            exact absurd hw (by decide)
          · intro hw
            exact absurd hw (by decide)
          · intro c hc
            simp [maxSendCountBad, hc] at hmb
            omega
      | daily =>
        dsimp only
        by_cases hmb : maxSendCountBad p = true
        · rw [if_pos hmb]
          refine iff_of_false (by simp) ?_
          intro hcon
          cases hmc : p.maxSendCount with
          | none => simp [maxSendCountBad, hmc] at hmb
          | some c =>
            have := hcon.1.2.2.2.2.2.2.2.2 c hmc
            simp [maxSendCountBad, hmc] at hmb
            omega
        · rw [if_neg hmb]
          refine iff_of_true rfl ⟨⟨h1, h2, h5, hAt, ⟨ts, rfl, fun hco => absurd hco (by decide)⟩, ?_, ?_, ?_, ?_⟩, hNe⟩
          · intro hw
            exact absurd hw (by decide)
          · intro hw
            exact absurd hw (by decide)
          · intro hw
            exact absurd hw (by decide)
          · intro c hc
            simp [maxSendCountBad, hc] at hmb
            omega

/-- C9 witness: the amended equivalence instantiated on concrete parameters
that satisfy every rule. -/
theorem c9_validation_iff_witness :
    (validateScheduledEmailParams sampleParse 0 sampleGoodParams).valid = true ↔
      (specValidationRules sampleParse 0 sampleGoodParams ∧
        ((jsSplitComma sampleGoodParams.to).map jsTrim).filter
          (fun r => decide (r ≠ "")) ≠ []) :=
  c9_validation_iff sampleParse 0 sampleGoodParams (by decide)

/-- C9 counterexample: the claim that the listed rules alone characterise
acceptance fails. With to a lone comma every listed rule holds (there is no
recipient lacking an at sign), yet the source rejects the parameters because
the trimmed recipient list is empty. -/
theorem c9_counterexample :
    specValidationRules sampleParse 0 sampleCommaParams ∧
    (validateScheduledEmailParams sampleParse 0 sampleCommaParams).valid = false := by
  constructor
  · refine ⟨by decide, by decide, by decide, by decide,
      ⟨1893456000000, by decide, fun h => absurd h (by decide)⟩,
      fun h => absurd h (by decide), fun h => absurd h (by decide),
      fun h => absurd h (by decide), fun c hc => Option.noConfusion hc⟩
  · decide
